import Mathlib

/-!
Verification of the staratlaspy client binding codec.

The repository contains two generated binding files:
an account record codec (`faction/accounts/player_faction_data.py`) and an
instruction record codec (`score/instructions/process_withdraw_fuel.py`).
This development embeds both files: byte strings are `List Nat` with each
element below 256, Python exceptions become an error type `Err`, and the
fallible operations return `Except Err _`.  The base58 text encoding of
public keys (used by `str(PublicKey)` / `PublicKey(str)`) is embedded
following the reference `b58encode` / `b58decode` algorithms: count leading
zero bytes, convert the remaining big-endian number by repeated division
(`Nat.digits`), and map digits through the Bitcoin alphabet.
-/

/-- Error kinds raised by the codec.  Python exceptions are modelled as
values: `AccountInvalidDiscriminator` is `invalidDiscriminator`, a construct
stream underrun is `truncatedInput`, the `ValueError` raised on a foreign
owner is `ownershipMismatch`, a `KeyError` on a missing account role is
`missingAccountRole`, an out-of-range integer at encode time is
`fieldMismatch`, and a malformed key string is `invalidPublicKey`. -/
inductive Err where
  | invalidDiscriminator : Err
  | truncatedInput : Err
  | ownershipMismatch : Err
  | missingAccountRole : Err
  | fieldMismatch : Err
  | invalidPublicKey : Err
  deriving DecidableEq

instance instDecEqExcept {ε α : Type} [DecidableEq ε] [DecidableEq α] :
    DecidableEq (Except ε α)
  | .error e1, .error e2 =>
    if h : e1 = e2 then .isTrue (by rw [h])
    else .isFalse (fun hc => h (Except.error.inj hc))
  | .error _, .ok _ => .isFalse (fun hc => Except.noConfusion hc)
  | .ok _, .error _ => .isFalse (fun hc => Except.noConfusion hc)
  | .ok a1, .ok a2 =>
    if h : a1 = a2 then .isTrue (by rw [h])
    else .isFalse (fun hc => h (Except.ok.inj hc))

/-- The Bitcoin base58 alphabet (digits and letters without 0, O, I, l),
as used by the Solana key text encoding. -/
def b58Alphabet : List Char :=
  ['1', '2', '3', '4', '5', '6', '7', '8', '9',
   'A', 'B', 'C', 'D', 'E', 'F', 'G', 'H', 'J', 'K', 'L', 'M',
   'N', 'P', 'Q', 'R', 'S', 'T', 'U', 'V', 'W', 'X', 'Y', 'Z',
   'a', 'b', 'c', 'd', 'e', 'f', 'g', 'h', 'i',
   'j', 'k', 'm', 'n', 'o', 'p', 'q', 'r', 's', 't',
   'u', 'v', 'w', 'x', 'y', 'z']

/-- Digit value 0..57 to its alphabet character. -/
def b58Char (d : Nat) : Char := b58Alphabet.getD d '1'

/-- Alphabet character back to its digit value (its index in the alphabet). -/
def b58Val (c : Char) : Nat := b58Alphabet.indexOf c

/-- base58-encode a big-endian byte string: one leading `'1'` per leading
zero byte, then the base-58 digits (most significant first) of the value of
the whole string read as a big-endian number. -/
def b58encodeList (bs : List Nat) : List Char :=
  let zeros := (bs.takeWhile (· == 0)).length
  let n := Nat.ofDigits 256 bs.reverse
  List.replicate zeros '1' ++ ((Nat.digits 58 n).reverse.map b58Char)

/-- base58-decode a character string: one leading zero byte per leading
`'1'`, then the minimal big-endian byte representation of the value of the
remaining base-58 digits. -/
def b58decodeList (cs : List Char) : List Nat :=
  let zeros := (cs.takeWhile (· == '1')).length
  let rest := cs.drop zeros
  let n := Nat.ofDigits 58 ((rest.map b58Val).reverse)
  List.replicate zeros 0 ++ (Nat.digits 256 n).reverse

/-- A Solana public key: 32 raw bytes (`solana.publickey.PublicKey`). -/
structure PublicKey where
  bytes : List Nat
  deriving DecidableEq

/-- A key is well formed when it has exactly 32 bytes. -/
def PublicKey.wf (k : PublicKey) : Prop :=
  k.bytes.length = 32 ∧ ∀ b ∈ k.bytes, b < 256

instance (k : PublicKey) : Decidable k.wf := by
  unfold PublicKey.wf
  infer_instance

/-- `str(PublicKey)`: the base58 text encoding of the 32 key bytes. -/
def pkToString (k : PublicKey) : String :=
  ⟨b58encodeList k.bytes⟩

/-- `PublicKey(str)`: base58-decode the string (rejecting characters outside
the alphabet, as `b58decode` does) and require exactly 32 resulting bytes. -/
def pkFromString (s : String) : Except Err PublicKey :=
  if s.toList.all (fun c => b58Alphabet.contains c) then
    let bs := b58decodeList s.toList
    if bs.length = 32 then .ok ⟨bs⟩ else .error .invalidPublicKey
  else .error .invalidPublicKey

/-- Read `n` bytes from the front of a construct stream, returning them and
the remaining stream; a short stream is a `TruncatedInput` error (construct
raises `StreamError` when a fixed-size read cannot be satisfied). -/
def readBytes (n : Nat) (bs : List Nat) : Except Err (List Nat × List Nat) :=
  if n ≤ bs.length then .ok (bs.take n, bs.drop n) else .error .truncatedInput

/-- Decode 8 little-endian bytes as a two's-complement signed 64-bit
integer (`borsh.I64`). -/
def decodeI64LE (bs : List Nat) : Int :=
  let n := Nat.ofDigits 256 bs
  if n < 2 ^ 63 then (n : Int) else (n : Int) - 2 ^ 64

/-- Decode little-endian bytes as an unsigned integer (`borsh.U64` on
8 bytes, `borsh.U8` on a single byte). -/
def decodeULE (bs : List Nat) : Nat := Nat.ofDigits 256 bs

namespace Faction

/-- Modelled from the spec: the faction package's `program_id.py` is not
under `src/`; the spec (section 4.3) only requires a fixed expected program
identity, so `PROGRAM_ID` is a fixed well-formed 32-byte key. -/
def PROGRAM_ID : PublicKey := ⟨(List.range 32).map (· + 1)⟩

/-- The decoded `PlayerFactionData` account record. -/
structure PlayerFactionData where
  owner : PublicKey
  enlisted_at_timestamp : Int
  faction_id : Nat
  bump : Nat
  padding : List Nat
  deriving DecidableEq

/-- The structured `PlayerFactionDataJSON` map: the owner key as its base58
text encoding, integers as plain integers, the padding as an ordered list. -/
structure PlayerFactionDataJSON where
  owner : String
  enlisted_at_timestamp : Int
  faction_id : Nat
  bump : Nat
  padding : List Nat
  deriving DecidableEq

/-- The 8-byte account discriminator `b"/,\xff\x0fgM\x8b\xf7"`. -/
def PlayerFactionData.discriminator : List Nat := [47, 44, 255, 15, 103, 77, 139, 247]

/-- `PlayerFactionData.layout.parse`: sequentially read the owner key
(32 raw bytes, `BorshPubkey`), the enlistment timestamp (`I64`), the faction
id (`U8`), the bump (`U8`) and five `U64` padding words, in declared order
at fixed offsets. -/
def PlayerFactionData.layoutParse (bs : List Nat) : Except Err PlayerFactionData := do
  let (ownerBytes, r1) ← readBytes 32 bs
  let (tsBytes, r2) ← readBytes 8 r1
  let (fidBytes, r3) ← readBytes 1 r2
  let (bumpBytes, r4) ← readBytes 1 r3
  let (p0, r5) ← readBytes 8 r4
  let (p1, r6) ← readBytes 8 r5
  let (p2, r7) ← readBytes 8 r6
  let (p3, r8) ← readBytes 8 r7
  let (p4, _) ← readBytes 8 r8
  pure { owner := ⟨ownerBytes⟩,
         enlisted_at_timestamp := decodeI64LE tsBytes,
         faction_id := decodeULE fidBytes,
         bump := decodeULE bumpBytes,
         padding := [decodeULE p0, decodeULE p1, decodeULE p2, decodeULE p3, decodeULE p4] }

/-- `PlayerFactionData.decode`: reject the blob when its first 8 bytes are
not the account discriminator, then parse the remainder with the layout. -/
def PlayerFactionData.decode (data : List Nat) : Except Err PlayerFactionData :=
  if data.take 8 ≠ PlayerFactionData.discriminator then .error .invalidDiscriminator
  else PlayerFactionData.layoutParse (data.drop 8)

/-- `PlayerFactionData.to_json`. -/
def PlayerFactionData.to_json (v : PlayerFactionData) : PlayerFactionDataJSON :=
  { owner := pkToString v.owner,
    enlisted_at_timestamp := v.enlisted_at_timestamp,
    faction_id := v.faction_id,
    bump := v.bump,
    padding := v.padding }

/-- `PlayerFactionData.from_json`. -/
def PlayerFactionData.from_json (obj : PlayerFactionDataJSON) :
    Except Err PlayerFactionData := do
  let owner ← pkFromString obj.owner
  pure { owner := owner,
         enlisted_at_timestamp := obj.enlisted_at_timestamp,
         faction_id := obj.faction_id,
         bump := obj.bump,
         padding := obj.padding }

/-- The raw account record held by the external account store: declared
owner and data bytes.  (The base64 transport encoding that
`get_account_info` applies to the data is elided: the store holds the
already-decoded bytes.) -/
structure AccountInfo where
  owner : PublicKey
  data : List Nat
  deriving DecidableEq

/-- `PlayerFactionData.fetch`: look the address up in the store; absent
account is an empty result; a stored owner whose base58 text differs from
`str(PROGRAM_ID)` (the RPC response carries the owner as a base58 string)
is an `OwnershipMismatch`; otherwise decode the data bytes. -/
def PlayerFactionData.fetch (conn : PublicKey → Option AccountInfo)
    (address : PublicKey) : Except Err (Option PlayerFactionData) :=
  match conn address with
  | none => .ok none
  | some info =>
      if pkToString info.owner ≠ pkToString PROGRAM_ID then .error .ownershipMismatch
      else (PlayerFactionData.decode info.data).map some

/-- The result loop of `PlayerFactionData.fetch_multiple` over the fetched
infos: a missing account appends `none`; a foreign owner raises; otherwise
the decoded value is appended. -/
def fetchLoop (infos : List (Option AccountInfo)) :
    Except Err (List (Option PlayerFactionData)) :=
  match infos with
  | [] => .ok []
  | none :: rest => (fetchLoop rest).map (fun tl => none :: tl)
  | some info :: rest =>
      if info.owner ≠ PROGRAM_ID then .error .ownershipMismatch
      else do
        let v ← PlayerFactionData.decode info.data
        let tl ← fetchLoop rest
        pure (some v :: tl)

/-- `PlayerFactionData.fetch_multiple`: get all infos from the store
(`get_multiple_accounts`), then run the result loop. -/
def PlayerFactionData.fetch_multiple (conn : PublicKey → Option AccountInfo)
    (addresses : List PublicKey) : Except Err (List (Option PlayerFactionData)) :=
  fetchLoop (addresses.map conn)

end Faction

/-- Look a named role up in the accounts mapping: a missing key is a
construction-time `MissingAccountRole` error (Python's `KeyError`). -/
def getKey (o : Option PublicKey) : Except Err PublicKey :=
  match o with
  | some k => .ok k
  | none => .error .missingAccountRole

/-- An account reference with its access flags
(`solana.transaction.AccountMeta`). -/
structure AccountMeta where
  pubkey : PublicKey
  is_signer : Bool
  is_writable : Bool
  deriving DecidableEq

/-- The assembled call payload
(`solana.transaction.TransactionInstruction`). -/
structure TransactionInstruction where
  keys : List AccountMeta
  program_id : PublicKey
  data : List Nat
  deriving DecidableEq

namespace Score

/-- Modelled from the spec: the score package's `program_id.py` is not
under `src/`; the spec (section 4.4) only requires a fixed program
identity on the payload, so `PROGRAM_ID` is a fixed well-formed
32-byte key. -/
def PROGRAM_ID : PublicKey := ⟨(List.range 32).map (· + 2)⟩

/-- The five `u8` bump-seed arguments of `process_withdraw_fuel`, in
declared order. -/
structure ProcessWithdrawFuelArgs where
  staking_bump : Int
  scorevars_bump : Int
  scorevars_ship_bump : Int
  escrow_auth_bump : Int
  escrow_bump : Int
  deriving DecidableEq

/-- The accounts mapping passed to `process_withdraw_fuel`: a keyed map, so
each named role may be present or absent. -/
structure ProcessWithdrawFuelAccounts where
  player_account : Option PublicKey
  ship_staking_account : Option PublicKey
  score_vars_account : Option PublicKey
  score_vars_ship_account : Option PublicKey
  fuel_token_account_escrow : Option PublicKey
  fuel_token_account_return : Option PublicKey
  fuel_mint : Option PublicKey
  escrow_authority : Option PublicKey
  token_program : Option PublicKey
  clock : Option PublicKey
  ship_mint : Option PublicKey
  deriving DecidableEq

/-- `borsh.U8.build`: a single byte; a value outside 0..255 is a construct
range error (`FieldMismatch`). -/
def u8Build (n : Int) : Except Err (List Nat) :=
  if 0 ≤ n ∧ n < 256 then .ok [n.toNat] else .error .fieldMismatch

/-- `layout.build`: encode the five `U8` fields in declared order. -/
def layoutBuild (args : ProcessWithdrawFuelArgs) : Except Err (List Nat) := do
  let b1 ← u8Build args.staking_bump
  let b2 ← u8Build args.scorevars_bump
  let b3 ← u8Build args.scorevars_ship_bump
  let b4 ← u8Build args.escrow_auth_bump
  let b5 ← u8Build args.escrow_bump
  pure (b1 ++ b2 ++ b3 ++ b4 ++ b5)

/-- The 8-byte instruction discriminator `b"-\x93\x93\xa3 \xdd\xa1\xb0"`. -/
def identifier : List Nat := [45, 147, 147, 163, 32, 221, 161, 176]

/-- `process_withdraw_fuel`: look up the 11 named account roles in schema
order with their fixed (is-signer, is-writable) flags, then emit the
payload: identifier followed by the encoded arguments, addressed to the
score program. -/
def process_withdraw_fuel (args : ProcessWithdrawFuelArgs)
    (accounts : ProcessWithdrawFuelAccounts) : Except Err TransactionInstruction := do
  let player_account ← getKey accounts.player_account
  let ship_staking_account ← getKey accounts.ship_staking_account
  let score_vars_account ← getKey accounts.score_vars_account
  let score_vars_ship_account ← getKey accounts.score_vars_ship_account
  let fuel_token_account_escrow ← getKey accounts.fuel_token_account_escrow
  let fuel_token_account_return ← getKey accounts.fuel_token_account_return
  let fuel_mint ← getKey accounts.fuel_mint
  let escrow_authority ← getKey accounts.escrow_authority
  let token_program ← getKey accounts.token_program
  let clock ← getKey accounts.clock
  let ship_mint ← getKey accounts.ship_mint
  let keys : List AccountMeta :=
    [⟨player_account, true, false⟩,
     ⟨ship_staking_account, false, true⟩,
     ⟨score_vars_account, false, false⟩,
     ⟨score_vars_ship_account, false, false⟩,
     ⟨fuel_token_account_escrow, false, true⟩,
     ⟨fuel_token_account_return, false, true⟩,
     ⟨fuel_mint, false, true⟩,
     ⟨escrow_authority, false, false⟩,
     ⟨token_program, false, false⟩,
     ⟨clock, false, false⟩,
     ⟨ship_mint, false, false⟩]
  let encoded_args ← layoutBuild args
  pure ⟨keys, PROGRAM_ID, identifier ++ encoded_args⟩

end Score

theorem b58Val_b58Char : ∀ d, d < 58 → b58Val (b58Char d) = d := by decide

theorem b58Char_ne_one : ∀ d, d < 58 → d ≠ 0 → b58Char d ≠ '1' := by decide

theorem b58Char_mem : ∀ d, d < 58 → b58Char d ∈ b58Alphabet := by decide

theorem ofDigits_replicate_zero (b z : Nat) :
    Nat.ofDigits b (List.replicate z 0) = 0 := by
  induction z with
  | zero => simp [Nat.ofDigits]
  | succ z ih => simp [List.replicate_succ, Nat.ofDigits, ih]

theorem takeWhile_one_replicate_append (z : Nat) (l : List Char) :
    ((List.replicate z '1' ++ l).takeWhile (· == '1')) =
      List.replicate z '1' ++ l.takeWhile (· == '1') := by
  induction z with
  | zero => simp
  | succ z ih => simp [List.replicate_succ, List.takeWhile_cons, ih]

theorem dropWhile_head_not (p : Nat → Bool) (l : List Nat) (c : Nat) (t : List Nat)
    (hd : l.dropWhile p = c :: t) : p c = false := by
  induction l with
  | nil => simp at hd
  | cons a l ih =>
      rw [List.dropWhile_cons] at hd
      by_cases hp : p a
      · exact ih (by simpa [hp] using hd)
      · simp only [hp, if_neg, ite_false] at hd
        cases hd
        simpa using hp

theorem getLast_reverse_cons (r0 : Nat) (rtl : List Nat)
    (hx : (r0 :: rtl).reverse ≠ []) : ((r0 :: rtl).reverse).getLast hx = r0 := by
  have h1 : ((r0 :: rtl).reverse).getLast? = some (((r0 :: rtl).reverse).getLast hx) :=
    List.getLast?_eq_getLast _ hx
  have h2 : ((r0 :: rtl).reverse).getLast? = some r0 := by
    have := List.head?_reverse ((r0 :: rtl).reverse)
    rw [List.reverse_reverse] at this
    rw [← this]
    rfl
  rw [h1] at h2
  exact Option.some.inj h2

/-- Evaluate the decoder on a string of `z` leading ones followed by
characters that do not start with a one. -/
theorem b58decode_shape (z : Nat) (l : List Char) (hl : l.takeWhile (· == '1') = []) :
    b58decodeList (List.replicate z '1' ++ l) =
      List.replicate z 0 ++
        (Nat.digits 256 (Nat.ofDigits 58 ((l.map b58Val).reverse))).reverse := by
  simp only [b58decodeList]
  have h1 : ((List.replicate z '1' ++ l).takeWhile (· == '1')) = List.replicate z '1' := by
    rw [takeWhile_one_replicate_append, hl, List.append_nil]
  have h2 : (List.replicate z '1' ++ l).drop (List.replicate z '1').length = l :=
    List.drop_left _ _
  rw [h1, List.length_replicate]
  rw [List.length_replicate] at h2
  rw [h2]

/-- Round-trip of the base58 text encoding on byte strings: decoding the
encoding of any byte string returns that byte string. -/
theorem b58_roundtrip (bs : List Nat) (h : ∀ b ∈ bs, b < 256) :
    b58decodeList (b58encodeList bs) = bs := by
  have htake : bs.takeWhile (· == 0) = List.replicate (bs.takeWhile (· == 0)).length 0 := by
    rw [List.eq_replicate_iff]
    exact ⟨rfl, fun b hb => by simpa using List.mem_takeWhile_imp hb⟩
  have hsplit : List.replicate (bs.takeWhile (· == 0)).length 0 ++ bs.dropWhile (· == 0) = bs := by
    conv_rhs => rw [← List.takeWhile_append_dropWhile (p := (· == 0)) (l := bs)]
    rw [← htake]
  have hofbs : Nat.ofDigits 256 bs.reverse =
      Nat.ofDigits 256 (bs.dropWhile (· == 0)).reverse := by
    conv_lhs => rw [← hsplit]
    rw [List.reverse_append, List.reverse_replicate, Nat.ofDigits_append,
      ofDigits_replicate_zero]
    simp
  have hdig256 : Nat.digits 256 (Nat.ofDigits 256 bs.reverse) =
      (bs.dropWhile (· == 0)).reverse := by
    rw [hofbs]
    cases hr : bs.dropWhile (· == 0) with
    | nil => simp [Nat.ofDigits]
    | cons r0 rtl =>
        refine Nat.digits_ofDigits 256 (by norm_num) _ ?_ ?_
        · intro x hx
          refine h x ?_
          exact (List.dropWhile_sublist _).mem (hr ▸ List.mem_reverse.mp hx)
        · intro hne
          rw [getLast_reverse_cons r0 rtl hne]
          simpa using dropWhile_head_not (· == 0) bs r0 rtl hr
  have hne58 : ∀ r0 rtl, bs.dropWhile (· == 0) = r0 :: rtl →
      Nat.ofDigits 256 bs.reverse ≠ 0 := by
    intro r0 rtl hr h0
    rw [h0] at hdig256
    rw [hr] at hdig256
    simp [Nat.digits_zero] at hdig256
  have hl : (((Nat.digits 58 (Nat.ofDigits 256 bs.reverse)).reverse.map b58Char).takeWhile
      (· == '1')) = [] := by
    cases hr : bs.dropWhile (· == 0) with
    | nil =>
        have h0 : Nat.ofDigits 256 bs.reverse = 0 := by rw [hofbs, hr]; simp [Nat.ofDigits]
        simp [h0]
    | cons r0 rtl =>
        have hN : Nat.ofDigits 256 bs.reverse ≠ 0 := hne58 r0 rtl hr
        have hD_ne : Nat.digits 58 (Nat.ofDigits 256 bs.reverse) ≠ [] :=
          Nat.digits_ne_nil_iff_ne_zero.mpr hN
        have hDsplit :
            (Nat.digits 58 (Nat.ofDigits 256 bs.reverse)).dropLast ++
              [(Nat.digits 58 (Nat.ofDigits 256 bs.reverse)).getLast hD_ne] =
            Nat.digits 58 (Nat.ofDigits 256 bs.reverse) :=
          List.dropLast_append_getLast hD_ne
        have hmemD : (Nat.digits 58 (Nat.ofDigits 256 bs.reverse)).getLast hD_ne ∈
            Nat.digits 58 (Nat.ofDigits 256 bs.reverse) := List.getLast_mem hD_ne
        have hlt : (Nat.digits 58 (Nat.ofDigits 256 bs.reverse)).getLast hD_ne < 58 :=
          Nat.digits_lt_base (by norm_num) hmemD
        have hnz : (Nat.digits 58 (Nat.ofDigits 256 bs.reverse)).getLast hD_ne ≠ 0 :=
          Nat.getLast_digit_ne_zero 58 hN
        have hrev : (Nat.digits 58 (Nat.ofDigits 256 bs.reverse)).reverse =
            (Nat.digits 58 (Nat.ofDigits 256 bs.reverse)).getLast hD_ne ::
              (Nat.digits 58 (Nat.ofDigits 256 bs.reverse)).dropLast.reverse := by
          conv_lhs => rw [← hDsplit]
          simp
        rw [hrev, List.map_cons, List.takeWhile_cons]
        have : (b58Char ((Nat.digits 58 (Nat.ofDigits 256 bs.reverse)).getLast hD_ne)
            == '1') = false := by
          simpa using b58Char_ne_one _ hlt hnz
        simp [this]
  have hvals : ((((Nat.digits 58 (Nat.ofDigits 256 bs.reverse)).reverse.map b58Char).map
      b58Val).reverse) = Nat.digits 58 (Nat.ofDigits 256 bs.reverse) := by
    rw [List.map_map]
    have : (Nat.digits 58 (Nat.ofDigits 256 bs.reverse)).reverse.map (b58Val ∘ b58Char) =
        (Nat.digits 58 (Nat.ofDigits 256 bs.reverse)).reverse.map id := by
      refine List.map_congr_left ?_
      intro d hd
      have hd' : d ∈ Nat.digits 58 (Nat.ofDigits 256 bs.reverse) := List.mem_reverse.mp hd
      have : d < 58 := Nat.digits_lt_base (by norm_num) hd'
      simpa using b58Val_b58Char d this
    rw [this, List.map_id, List.reverse_reverse]
  have henc : b58encodeList bs = List.replicate (bs.takeWhile (· == 0)).length '1' ++
      ((Nat.digits 58 (Nat.ofDigits 256 bs.reverse)).reverse.map b58Char) := rfl
  rw [henc, b58decode_shape _ _ hl, hvals, Nat.ofDigits_digits, hdig256,
    List.reverse_reverse, hsplit]

theorem b58encode_chars_mem (bs : List Nat) (c : Char) (hc : c ∈ b58encodeList bs) :
    c ∈ b58Alphabet := by
  simp only [b58encodeList] at hc
  rcases List.mem_append.mp hc with hrep | hmap
  · have : c = '1' := List.eq_of_mem_replicate hrep
    rw [this]
    decide
  · rcases List.mem_map.mp hmap with ⟨d, hd, hdc⟩
    have hd58 : d < 58 :=
      Nat.digits_lt_base (by norm_num) (List.mem_reverse.mp hd)
    rw [← hdc]
    exact b58Char_mem d hd58

/-- Parsing the printed form of a well-formed key returns the key. -/
theorem pkFromString_pkToString (k : PublicKey) (h : k.wf) :
    pkFromString (pkToString k) = .ok k := by
  obtain ⟨hlen, hbytes⟩ := h
  have hs : (pkToString k).toList = b58encodeList k.bytes := rfl
  have hrt : b58decodeList (b58encodeList k.bytes) = k.bytes := b58_roundtrip k.bytes hbytes
  simp only [pkFromString, hs]
  have hall : (b58encodeList k.bytes).all (fun c => b58Alphabet.contains c) = true := by
    rw [List.all_eq_true]
    intro c hc
    have hmem := b58encode_chars_mem k.bytes c hc
    simp [List.elem_iff]
    exact hmem
  rw [if_pos hall]
  simp only [hrt]
  rw [if_pos hlen]

/-- The printed form determines a well-formed key. -/
theorem pkToString_injOn (k1 k2 : PublicKey) (h1 : k1.wf) (h2 : k2.wf)
    (heq : pkToString k1 = pkToString k2) : k1 = k2 := by
  have hc : b58encodeList k1.bytes = b58encodeList k2.bytes := by
    have := congrArg String.toList heq
    simpa [pkToString] using this
  have : k1.bytes = k2.bytes := by
    rw [← b58_roundtrip k1.bytes h1.2, ← b58_roundtrip k2.bytes h2.2, hc]
  cases k1
  cases k2
  simpa using this

theorem readBytes_ok (n : Nat) (bs : List Nat) (h : n ≤ bs.length) :
    readBytes n bs = .ok (bs.take n, bs.drop n) := by simp [readBytes, h]

theorem readBytes_err (n : Nat) (bs : List Nat) (h : bs.length < n) :
    readBytes n bs = .error .truncatedInput := by
  have hx : ¬ n ≤ bs.length := by omega
  simp [readBytes, hx]

theorem exbind_ok {α β : Type} (a : α) (f : α → Except Err β) :
    (Except.ok a >>= f) = f a := rfl

theorem exbind_err {α β : Type} (e : Err) (f : α → Except Err β) :
    ((Except.error e : Except Err α) >>= f) = Except.error e := rfl

theorem expure {α : Type} (a : α) : (pure a : Except Err α) = Except.ok a := rfl

theorem exmap_ok {α β : Type} (f : α → β) (x : α) :
    Except.map f (Except.ok x : Except Err α) = Except.ok (f x) := rfl

theorem exmap_err {α β : Type} (f : α → β) (e : Err) :
    Except.map f (Except.error e : Except Err α) = Except.error e := rfl

namespace Faction

theorem PROGRAM_ID_wf : PROGRAM_ID.wf := by decide

theorem layoutParse_short (bs : List Nat) (h : bs.length < 82) :
    PlayerFactionData.layoutParse bs = .error Err.truncatedInput := by
  by_cases h1 : bs.length < 32
  · have l1 := readBytes_err 32 bs (by omega)
    simp only [PlayerFactionData.layoutParse, l1, exbind_err]
  by_cases h2 : bs.length < 40
  · have l1 := readBytes_ok 32 bs (by omega)
    have l2 := readBytes_err 8 (bs.drop 32) (by simp only [List.length_drop]; omega)
    simp only [PlayerFactionData.layoutParse, l1, l2, exbind_ok, exbind_err]
  by_cases h3 : bs.length < 41
  · have l1 := readBytes_ok 32 bs (by omega)
    have l2 := readBytes_ok 8 (bs.drop 32) (by simp only [List.length_drop]; omega)
    have l3 := readBytes_err 1 ((bs.drop 32).drop 8) (by simp only [List.length_drop]; omega)
    simp only [PlayerFactionData.layoutParse, l1, l2, l3, exbind_ok, exbind_err]
  by_cases h4 : bs.length < 42
  · have l1 := readBytes_ok 32 bs (by omega)
    have l2 := readBytes_ok 8 (bs.drop 32) (by simp only [List.length_drop]; omega)
    have l3 := readBytes_ok 1 ((bs.drop 32).drop 8) (by simp only [List.length_drop]; omega)
    have l4 := readBytes_err 1 (((bs.drop 32).drop 8).drop 1)
      (by simp only [List.length_drop]; omega)
    simp only [PlayerFactionData.layoutParse, l1, l2, l3, l4, exbind_ok, exbind_err]
  by_cases h5 : bs.length < 50
  · have l1 := readBytes_ok 32 bs (by omega)
    have l2 := readBytes_ok 8 (bs.drop 32) (by simp only [List.length_drop]; omega)
    have l3 := readBytes_ok 1 ((bs.drop 32).drop 8) (by simp only [List.length_drop]; omega)
    have l4 := readBytes_ok 1 (((bs.drop 32).drop 8).drop 1)
      (by simp only [List.length_drop]; omega)
    have l5 := readBytes_err 8 ((((bs.drop 32).drop 8).drop 1).drop 1)
      (by simp only [List.length_drop]; omega)
    simp only [PlayerFactionData.layoutParse, l1, l2, l3, l4, l5, exbind_ok, exbind_err]
  by_cases h6 : bs.length < 58
  · have l1 := readBytes_ok 32 bs (by omega)
    have l2 := readBytes_ok 8 (bs.drop 32) (by simp only [List.length_drop]; omega)
    have l3 := readBytes_ok 1 ((bs.drop 32).drop 8) (by simp only [List.length_drop]; omega)
    have l4 := readBytes_ok 1 (((bs.drop 32).drop 8).drop 1)
      (by simp only [List.length_drop]; omega)
    have l5 := readBytes_ok 8 ((((bs.drop 32).drop 8).drop 1).drop 1)
      (by simp only [List.length_drop]; omega)
    have l6 := readBytes_err 8 (((((bs.drop 32).drop 8).drop 1).drop 1).drop 8)
      (by simp only [List.length_drop]; omega)
    simp only [PlayerFactionData.layoutParse, l1, l2, l3, l4, l5, l6, exbind_ok, exbind_err]
  by_cases h7 : bs.length < 66
  · have l1 := readBytes_ok 32 bs (by omega)
    have l2 := readBytes_ok 8 (bs.drop 32) (by simp only [List.length_drop]; omega)
    have l3 := readBytes_ok 1 ((bs.drop 32).drop 8) (by simp only [List.length_drop]; omega)
    have l4 := readBytes_ok 1 (((bs.drop 32).drop 8).drop 1)
      (by simp only [List.length_drop]; omega)
    have l5 := readBytes_ok 8 ((((bs.drop 32).drop 8).drop 1).drop 1)
      (by simp only [List.length_drop]; omega)
    have l6 := readBytes_ok 8 (((((bs.drop 32).drop 8).drop 1).drop 1).drop 8)
      (by simp only [List.length_drop]; omega)
    have l7 := readBytes_err 8 ((((((bs.drop 32).drop 8).drop 1).drop 1).drop 8).drop 8)
      (by simp only [List.length_drop]; omega)
    simp only [PlayerFactionData.layoutParse, l1, l2, l3, l4, l5, l6, l7, exbind_ok,
      exbind_err]
  by_cases h8 : bs.length < 74
  · have l1 := readBytes_ok 32 bs (by omega)
    have l2 := readBytes_ok 8 (bs.drop 32) (by simp only [List.length_drop]; omega)
    have l3 := readBytes_ok 1 ((bs.drop 32).drop 8) (by simp only [List.length_drop]; omega)
    have l4 := readBytes_ok 1 (((bs.drop 32).drop 8).drop 1)
      (by simp only [List.length_drop]; omega)
    have l5 := readBytes_ok 8 ((((bs.drop 32).drop 8).drop 1).drop 1)
      (by simp only [List.length_drop]; omega)
    have l6 := readBytes_ok 8 (((((bs.drop 32).drop 8).drop 1).drop 1).drop 8)
      (by simp only [List.length_drop]; omega)
    have l7 := readBytes_ok 8 ((((((bs.drop 32).drop 8).drop 1).drop 1).drop 8).drop 8)
      (by simp only [List.length_drop]; omega)
    have l8 := readBytes_err 8 (((((((bs.drop 32).drop 8).drop 1).drop 1).drop 8).drop 8).drop 8)
      (by simp only [List.length_drop]; omega)
    simp only [PlayerFactionData.layoutParse, l1, l2, l3, l4, l5, l6, l7, l8, exbind_ok,
      exbind_err]
  · have l1 := readBytes_ok 32 bs (by omega)
    have l2 := readBytes_ok 8 (bs.drop 32) (by simp only [List.length_drop]; omega)
    have l3 := readBytes_ok 1 ((bs.drop 32).drop 8) (by simp only [List.length_drop]; omega)
    have l4 := readBytes_ok 1 (((bs.drop 32).drop 8).drop 1)
      (by simp only [List.length_drop]; omega)
    have l5 := readBytes_ok 8 ((((bs.drop 32).drop 8).drop 1).drop 1)
      (by simp only [List.length_drop]; omega)
    have l6 := readBytes_ok 8 (((((bs.drop 32).drop 8).drop 1).drop 1).drop 8)
      (by simp only [List.length_drop]; omega)
    have l7 := readBytes_ok 8 ((((((bs.drop 32).drop 8).drop 1).drop 1).drop 8).drop 8)
      (by simp only [List.length_drop]; omega)
    have l8 := readBytes_ok 8 (((((((bs.drop 32).drop 8).drop 1).drop 1).drop 8).drop 8).drop 8)
      (by simp only [List.length_drop]; omega)
    have l9 := readBytes_err 8
      ((((((((bs.drop 32).drop 8).drop 1).drop 1).drop 8).drop 8).drop 8).drop 8)
      (by simp only [List.length_drop]; omega)
    simp only [PlayerFactionData.layoutParse, l1, l2, l3, l4, l5, l6, l7, l8, l9,
      exbind_ok, exbind_err]

theorem layoutParse_of_length (bs : List Nat) (h : 82 ≤ bs.length) :
    PlayerFactionData.layoutParse bs = .ok
      { owner := ⟨bs.take 32⟩,
        enlisted_at_timestamp := decodeI64LE ((bs.drop 32).take 8),
        faction_id := decodeULE ((bs.drop 40).take 1),
        bump := decodeULE ((bs.drop 41).take 1),
        padding := [decodeULE ((bs.drop 42).take 8), decodeULE ((bs.drop 50).take 8),
          decodeULE ((bs.drop 58).take 8), decodeULE ((bs.drop 66).take 8),
          decodeULE ((bs.drop 74).take 8)] } := by
  have l1 := readBytes_ok 32 bs (by omega)
  have l2 := readBytes_ok 8 (bs.drop 32) (by simp only [List.length_drop]; omega)
  have l3 := readBytes_ok 1 ((bs.drop 32).drop 8) (by simp only [List.length_drop]; omega)
  have l4 := readBytes_ok 1 (((bs.drop 32).drop 8).drop 1)
    (by simp only [List.length_drop]; omega)
  have l5 := readBytes_ok 8 ((((bs.drop 32).drop 8).drop 1).drop 1)
    (by simp only [List.length_drop]; omega)
  have l6 := readBytes_ok 8 (((((bs.drop 32).drop 8).drop 1).drop 1).drop 8)
    (by simp only [List.length_drop]; omega)
  have l7 := readBytes_ok 8 ((((((bs.drop 32).drop 8).drop 1).drop 1).drop 8).drop 8)
    (by simp only [List.length_drop]; omega)
  have l8 := readBytes_ok 8 (((((((bs.drop 32).drop 8).drop 1).drop 1).drop 8).drop 8).drop 8)
    (by simp only [List.length_drop]; omega)
  have l9 := readBytes_ok 8
    ((((((((bs.drop 32).drop 8).drop 1).drop 1).drop 8).drop 8).drop 8).drop 8)
    (by simp only [List.length_drop]; omega)
  simp only [PlayerFactionData.layoutParse, l1, l2, l3, l4, l5, l6, l7, l8, l9,
    exbind_ok, expure]
  simp [List.drop_drop]

end Faction

/-- C1: for every five argument integers in 0..255 and every complete
accounts mapping, `process_withdraw_fuel` returns the payload whose data
bytes are the fixed 8-byte instruction discriminator followed by the
little-endian single-byte encodings of the five u8 arguments in declared
order, and whose account-reference list has exactly the 11 entries in
schema order with the fixed (is-signer, is-writable) flags (only
`player_account` signs; `ship_staking_account`,
`fuel_token_account_escrow`, `fuel_token_account_return` and `fuel_mint`
are writable), independent of the argument values. -/
theorem claim_C1 (a1 a2 a3 a4 a5 : Int)
    (h1 : 0 ≤ a1 ∧ a1 < 256) (h2 : 0 ≤ a2 ∧ a2 < 256) (h3 : 0 ≤ a3 ∧ a3 < 256)
    (h4 : 0 ≤ a4 ∧ a4 < 256) (h5 : 0 ≤ a5 ∧ a5 < 256)
    (pa sa sva svsa fte ftr fm ea tp ck sm : PublicKey) :
    Score.process_withdraw_fuel ⟨a1, a2, a3, a4, a5⟩
      ⟨some pa, some sa, some sva, some svsa, some fte, some ftr, some fm, some ea,
        some tp, some ck, some sm⟩ =
      .ok ⟨[⟨pa, true, false⟩, ⟨sa, false, true⟩, ⟨sva, false, false⟩,
            ⟨svsa, false, false⟩, ⟨fte, false, true⟩, ⟨ftr, false, true⟩,
            ⟨fm, false, true⟩, ⟨ea, false, false⟩, ⟨tp, false, false⟩,
            ⟨ck, false, false⟩, ⟨sm, false, false⟩],
           Score.PROGRAM_ID,
           [45, 147, 147, 163, 32, 221, 161, 176,
            a1.toNat, a2.toNat, a3.toNat, a4.toNat, a5.toNat]⟩ := by
  simp [Score.process_withdraw_fuel, getKey, Score.layoutBuild, Score.u8Build,
    Score.identifier, h1, h2, h3, h4, h5, exbind_ok, expure]

theorem claim_C1_witness :
    Score.process_withdraw_fuel ⟨1, 2, 3, 4, 5⟩
      ⟨some ⟨List.replicate 32 1⟩, some ⟨List.replicate 32 2⟩,
        some ⟨List.replicate 32 3⟩, some ⟨List.replicate 32 4⟩,
        some ⟨List.replicate 32 5⟩, some ⟨List.replicate 32 6⟩,
        some ⟨List.replicate 32 7⟩, some ⟨List.replicate 32 8⟩,
        some ⟨List.replicate 32 9⟩, some ⟨List.replicate 32 10⟩,
        some ⟨List.replicate 32 11⟩⟩ =
      .ok ⟨[⟨⟨List.replicate 32 1⟩, true, false⟩, ⟨⟨List.replicate 32 2⟩, false, true⟩,
            ⟨⟨List.replicate 32 3⟩, false, false⟩, ⟨⟨List.replicate 32 4⟩, false, false⟩,
            ⟨⟨List.replicate 32 5⟩, false, true⟩, ⟨⟨List.replicate 32 6⟩, false, true⟩,
            ⟨⟨List.replicate 32 7⟩, false, true⟩, ⟨⟨List.replicate 32 8⟩, false, false⟩,
            ⟨⟨List.replicate 32 9⟩, false, false⟩, ⟨⟨List.replicate 32 10⟩, false, false⟩,
            ⟨⟨List.replicate 32 11⟩, false, false⟩],
           Score.PROGRAM_ID,
           [45, 147, 147, 163, 32, 221, 161, 176, 1, 2, 3, 4, 5]⟩ :=
  claim_C1 1 2 3 4 5 (by decide) (by decide) (by decide) (by decide) (by decide)
    ⟨List.replicate 32 1⟩ ⟨List.replicate 32 2⟩ ⟨List.replicate 32 3⟩
    ⟨List.replicate 32 4⟩ ⟨List.replicate 32 5⟩ ⟨List.replicate 32 6⟩
    ⟨List.replicate 32 7⟩ ⟨List.replicate 32 8⟩ ⟨List.replicate 32 9⟩
    ⟨List.replicate 32 10⟩ ⟨List.replicate 32 11⟩

/-- C7: the build is deterministic: two calls of `process_withdraw_fuel` on
equal args and accounts inputs return identical payloads (byte-identical
data and identically ordered, identically flagged account references);
the output depends only on the inputs. -/
theorem claim_C7 (args1 args2 : Score.ProcessWithdrawFuelArgs)
    (accounts1 accounts2 : Score.ProcessWithdrawFuelAccounts)
    (hargs : args1 = args2) (haccounts : accounts1 = accounts2) :
    Score.process_withdraw_fuel args1 accounts1 =
      Score.process_withdraw_fuel args2 accounts2 := by
  rw [hargs, haccounts]

theorem claim_C7_witness :
    Score.process_withdraw_fuel ⟨0, 0, 0, 0, 0⟩
      ⟨none, none, none, none, none, none, none, none, none, none, none⟩ =
      Score.process_withdraw_fuel ⟨0, 0, 0, 0, 0⟩
        ⟨none, none, none, none, none, none, none, none, none, none, none⟩ :=
  claim_C7 ⟨0, 0, 0, 0, 0⟩ ⟨0, 0, 0, 0, 0⟩
    ⟨none, none, none, none, none, none, none, none, none, none, none⟩
    ⟨none, none, none, none, none, none, none, none, none, none, none⟩ rfl rfl

/-- C8: when the accounts mapping omits at least one of the 11 required
named roles, `process_withdraw_fuel` fails at construction time with the
`MissingAccountRole` error and never returns a payload. -/
theorem claim_C8 (args : Score.ProcessWithdrawFuelArgs)
    (accounts : Score.ProcessWithdrawFuelAccounts)
    (h : accounts.player_account = none ∨ accounts.ship_staking_account = none ∨
      accounts.score_vars_account = none ∨ accounts.score_vars_ship_account = none ∨
      accounts.fuel_token_account_escrow = none ∨
      accounts.fuel_token_account_return = none ∨ accounts.fuel_mint = none ∨
      accounts.escrow_authority = none ∨ accounts.token_program = none ∨
      accounts.clock = none ∨ accounts.ship_mint = none) :
    Score.process_withdraw_fuel args accounts = .error Err.missingAccountRole := by
  obtain ⟨o1, o2, o3, o4, o5, o6, o7, o8, o9, o10, o11⟩ := accounts
  simp only at h
  cases o1 with
  | none => rfl
  | some k1 =>
  cases o2 with
  | none => rfl
  | some k2 =>
  cases o3 with
  | none => rfl
  | some k3 =>
  cases o4 with
  | none => rfl
  | some k4 =>
  cases o5 with
  | none => rfl
  | some k5 =>
  cases o6 with
  | none => rfl
  | some k6 =>
  cases o7 with
  | none => rfl
  | some k7 =>
  cases o8 with
  | none => rfl
  | some k8 =>
  cases o9 with
  | none => rfl
  | some k9 =>
  cases o10 with
  | none => rfl
  | some k10 =>
  cases o11 with
  | none => rfl
  | some k11 => simp at h

theorem claim_C8_witness :
    Score.process_withdraw_fuel ⟨7, 7, 7, 7, 7⟩
      ⟨some ⟨List.replicate 32 1⟩, none, some ⟨List.replicate 32 3⟩,
        some ⟨List.replicate 32 4⟩, some ⟨List.replicate 32 5⟩,
        some ⟨List.replicate 32 6⟩, some ⟨List.replicate 32 7⟩,
        some ⟨List.replicate 32 8⟩, some ⟨List.replicate 32 9⟩,
        some ⟨List.replicate 32 10⟩, some ⟨List.replicate 32 11⟩⟩ =
      .error Err.missingAccountRole :=
  claim_C8 ⟨7, 7, 7, 7, 7⟩ _ (by simp)

/-- C2: every byte string whose first 8 bytes differ from the expected
account discriminator is rejected by decode with `InvalidDiscriminator`,
whatever the remaining bytes are; no decoded value is ever returned. -/
theorem claim_C2 (data : List Nat)
    (h : data.take 8 ≠ Faction.PlayerFactionData.discriminator) :
    Faction.PlayerFactionData.decode data = .error Err.invalidDiscriminator := by
  simp [Faction.PlayerFactionData.decode, h]

theorem claim_C2_witness :
    Faction.PlayerFactionData.decode (List.replicate 95 0) =
      .error Err.invalidDiscriminator :=
  claim_C2 (List.replicate 95 0) (by decide)

/-- C3 counterexample: the empty byte string is shorter than 90 bytes, yet
decode rejects it with `InvalidDiscriminator`, not `TruncatedInput` (the
discriminator comparison runs first and a short prefix never equals the
8-byte tag). -/
theorem claim_C3_cex :
    ([] : List Nat).length < 90 ∧
      Faction.PlayerFactionData.decode [] ≠ .error Err.truncatedInput := by
  exact ⟨by decide, by decide⟩

/-- C3 (amended): a byte string shorter than 90 bytes never decodes; when
its first 8 bytes equal the account discriminator it fails with
`TruncatedInput`, and otherwise (in particular whenever it is shorter than
8 bytes) it fails with `InvalidDiscriminator`. -/
theorem claim_C3 (data : List Nat) (h : data.length < 90) :
    (data.take 8 = Faction.PlayerFactionData.discriminator →
      Faction.PlayerFactionData.decode data = .error Err.truncatedInput) ∧
    (data.take 8 ≠ Faction.PlayerFactionData.discriminator →
      Faction.PlayerFactionData.decode data = .error Err.invalidDiscriminator) := by
  constructor
  · intro hd
    have hlen : (data.drop 8).length < 82 := by
      simp only [List.length_drop]
      omega
    simp [Faction.PlayerFactionData.decode, hd, Faction.layoutParse_short _ hlen]
  · intro hd
    simp [Faction.PlayerFactionData.decode, hd]

theorem claim_C3_witness :
    ((Faction.PlayerFactionData.discriminator ++ [0]).take 8 =
        Faction.PlayerFactionData.discriminator →
      Faction.PlayerFactionData.decode (Faction.PlayerFactionData.discriminator ++ [0]) =
        .error Err.truncatedInput) ∧
    ((Faction.PlayerFactionData.discriminator ++ [0]).take 8 ≠
        Faction.PlayerFactionData.discriminator →
      Faction.PlayerFactionData.decode (Faction.PlayerFactionData.discriminator ++ [0]) =
        .error Err.invalidDiscriminator) :=
  claim_C3 (Faction.PlayerFactionData.discriminator ++ [0]) (by decide)

/-- C10: a buffer whose first 8 bytes equal the discriminator and whose
remainder is at least 82 bytes decodes successfully, and the result
depends only on the first 90 bytes: trailing bytes are silently ignored. -/
theorem claim_C10 (data : List Nat)
    (hd : data.take 8 = Faction.PlayerFactionData.discriminator)
    (hlen : 90 ≤ data.length) :
    (∃ v, Faction.PlayerFactionData.decode data = .ok v) ∧
      Faction.PlayerFactionData.decode data =
        Faction.PlayerFactionData.decode (data.take 90) := by
  have h82 : 82 ≤ (data.drop 8).length := by
    simp only [List.length_drop]
    omega
  have e1 : Faction.PlayerFactionData.decode data =
      Faction.PlayerFactionData.layoutParse (data.drop 8) := by
    simp [Faction.PlayerFactionData.decode, hd]
  have ht8 : (data.take 90).take 8 = Faction.PlayerFactionData.discriminator := by
    rw [List.take_take]
    simpa using hd
  have e2 : Faction.PlayerFactionData.decode (data.take 90) =
      Faction.PlayerFactionData.layoutParse ((data.drop 8).take 82) := by
    simp [Faction.PlayerFactionData.decode, ht8, List.drop_take]
  have h82t : 82 ≤ ((data.drop 8).take 82).length := by
    simp only [List.length_take, List.length_drop]
    omega
  constructor
  · exact ⟨_, by rw [e1, Faction.layoutParse_of_length _ h82]⟩
  · rw [e1, e2, Faction.layoutParse_of_length _ h82, Faction.layoutParse_of_length _ h82t]
    simp [List.take_take, List.drop_take]

theorem claim_C10_witness :
    (∃ v, Faction.PlayerFactionData.decode
        (Faction.PlayerFactionData.discriminator ++ List.replicate 90 0) = .ok v) ∧
      Faction.PlayerFactionData.decode
          (Faction.PlayerFactionData.discriminator ++ List.replicate 90 0) =
        Faction.PlayerFactionData.decode
          ((Faction.PlayerFactionData.discriminator ++ List.replicate 90 0).take 90) :=
  claim_C10 (Faction.PlayerFactionData.discriminator ++ List.replicate 90 0)
    (by decide) (by decide)

/-- C6: for every valid `PlayerFactionData` value (well-formed owner key,
in-range integers, 5-element padding list), converting to the structured
map and back yields the original value in every field:
`from_json (to_json v) = ok v`. -/
theorem claim_C6 (v : Faction.PlayerFactionData) (hk : v.owner.wf)
    (hts : -(2 ^ 63) ≤ v.enlisted_at_timestamp ∧ v.enlisted_at_timestamp < 2 ^ 63)
    (hf : v.faction_id < 256) (hb : v.bump < 256)
    (hp : v.padding.length = 5 ∧ ∀ w ∈ v.padding, w < 2 ^ 64) :
    Faction.PlayerFactionData.from_json (Faction.PlayerFactionData.to_json v) =
      .ok v := by
  cases v with
  | mk owner ts fid bump padding =>
      have hk2 : owner.wf := hk
      simp only [Faction.PlayerFactionData.to_json, Faction.PlayerFactionData.from_json]
      rw [pkFromString_pkToString owner hk2]
      rw [exbind_ok]
      rfl

theorem claim_C6_witness :
    Faction.PlayerFactionData.from_json
        (Faction.PlayerFactionData.to_json
          ⟨⟨List.replicate 32 0⟩, 1000, 3, 7, [0, 0, 0, 0, 0]⟩) =
      .ok ⟨⟨List.replicate 32 0⟩, 1000, 3, 7, [0, 0, 0, 0, 0]⟩ :=
  claim_C6 ⟨⟨List.replicate 32 0⟩, 1000, 3, 7, [0, 0, 0, 0, 0]⟩
    (by decide) (by decide) (by decide) (by decide) (by decide)

/-- C4: `fetch` on an address whose stored account exists but is owned by a
different program identity than `PROGRAM_ID` always fails with
`OwnershipMismatch` and never returns a decoded value. -/
theorem claim_C4 (conn : PublicKey → Option Faction.AccountInfo) (address : PublicKey)
    (info : Faction.AccountInfo) (hconn : conn address = some info)
    (hwf : info.owner.wf) (hne : info.owner ≠ Faction.PROGRAM_ID) :
    Faction.PlayerFactionData.fetch conn address = .error Err.ownershipMismatch := by
  have hstr : pkToString info.owner ≠ pkToString Faction.PROGRAM_ID := by
    intro heq
    exact hne (pkToString_injOn _ _ hwf Faction.PROGRAM_ID_wf heq)
  simp [Faction.PlayerFactionData.fetch, hconn, hstr]

theorem claim_C4_witness :
    Faction.PlayerFactionData.fetch
        (fun _ => some ⟨⟨List.replicate 32 0⟩, []⟩) ⟨List.replicate 32 9⟩ =
      .error Err.ownershipMismatch :=
  claim_C4 (fun _ => some ⟨⟨List.replicate 32 0⟩, []⟩) ⟨List.replicate 32 9⟩
    ⟨⟨List.replicate 32 0⟩, []⟩ rfl (by decide) (by decide)

theorem fetchLoop_length (infos : List (Option Faction.AccountInfo))
    (res : List (Option Faction.PlayerFactionData))
    (h : Faction.fetchLoop infos = .ok res) : res.length = infos.length := by
  induction infos generalizing res with
  | nil =>
      simp only [Faction.fetchLoop] at h
      cases h
      rfl
  | cons info rest ih =>
      cases info with
      | none =>
          simp only [Faction.fetchLoop] at h
          cases hr : Faction.fetchLoop rest with
          | error e => rw [hr, exmap_err] at h; cases h
          | ok tl =>
              rw [hr, exmap_ok] at h
              cases h
              simp [ih tl hr]
      | some i =>
          simp only [Faction.fetchLoop] at h
          by_cases ho : i.owner ≠ Faction.PROGRAM_ID
          · rw [if_pos ho] at h
            exact absurd h (by simp)
          · rw [if_neg ho] at h
            cases hd : Faction.PlayerFactionData.decode i.data with
            | error e => rw [hd, exbind_err] at h; exact absurd h (by simp)
            | ok v =>
                rw [hd, exbind_ok] at h
                cases hr : Faction.fetchLoop rest with
                | error e => rw [hr, exbind_err] at h; exact absurd h (by simp)
                | ok tl =>
                    rw [hr, exbind_ok, expure] at h
                    cases h
                    simp [ih tl hr]

/-- C5: `fetch` returns the empty result on an absent address, and
`fetch_multiple` returns exactly one result slot per input address in input
order, a missing account yielding `none` in its own slot without aborting
the batch: on `[a1, a2, a3]` with `a2` absent and `a1`, `a3` valid, the
result is `[some v1, none, some v3]`. -/
theorem claim_C5 :
    (∀ (conn : PublicKey → Option Faction.AccountInfo) (address : PublicKey),
      conn address = none →
        Faction.PlayerFactionData.fetch conn address = .ok none) ∧
    (∀ (conn : PublicKey → Option Faction.AccountInfo) (addresses : List PublicKey)
      (res : List (Option Faction.PlayerFactionData)),
      Faction.PlayerFactionData.fetch_multiple conn addresses = .ok res →
        res.length = addresses.length) ∧
    (∀ (conn : PublicKey → Option Faction.AccountInfo) (a1 a2 a3 : PublicKey)
      (i1 i3 : Faction.AccountInfo) (v1 v3 : Faction.PlayerFactionData),
      conn a1 = some i1 → conn a2 = none → conn a3 = some i3 →
      i1.owner = Faction.PROGRAM_ID → i3.owner = Faction.PROGRAM_ID →
      Faction.PlayerFactionData.decode i1.data = .ok v1 →
      Faction.PlayerFactionData.decode i3.data = .ok v3 →
      Faction.PlayerFactionData.fetch_multiple conn [a1, a2, a3] =
        .ok [some v1, none, some v3]) := by
  refine ⟨?_, ?_, ?_⟩
  · intro conn address h
    simp [Faction.PlayerFactionData.fetch, h]
  · intro conn addresses res h
    have := fetchLoop_length (addresses.map conn) res h
    simpa using this
  · intro conn a1 a2 a3 i1 i3 v1 v3 h1 h2 h3 ho1 ho3 hd1 hd3
    have e : [a1, a2, a3].map conn = [some i1, none, some i3] := by
      simp [h1, h2, h3]
    simp only [Faction.PlayerFactionData.fetch_multiple, e, Faction.fetchLoop]
    rw [if_neg (fun hcon => hcon ho1), hd1, exbind_ok]
    rw [if_neg (fun hcon => hcon ho3), hd3, exbind_ok]
    rfl

theorem claim_C5_witness :
    Faction.PlayerFactionData.fetch_multiple
        (fun a =>
          if a = ⟨List.replicate 32 3⟩ then
            some ⟨Faction.PROGRAM_ID,
              Faction.PlayerFactionData.discriminator ++ List.replicate 82 0⟩
          else if a = ⟨List.replicate 32 5⟩ then
            some ⟨Faction.PROGRAM_ID,
              Faction.PlayerFactionData.discriminator ++ List.replicate 82 1⟩
          else none)
        [⟨List.replicate 32 3⟩, ⟨List.replicate 32 4⟩, ⟨List.replicate 32 5⟩] =
      .ok [some ⟨⟨List.replicate 32 0⟩, 0, 0, 0, [0, 0, 0, 0, 0]⟩, none,
        some ⟨⟨List.replicate 32 1⟩, decodeI64LE (List.replicate 8 1), 1, 1,
          [decodeULE (List.replicate 8 1), decodeULE (List.replicate 8 1),
           decodeULE (List.replicate 8 1), decodeULE (List.replicate 8 1),
           decodeULE (List.replicate 8 1)]⟩] :=
  claim_C5.2.2
    (fun a =>
      if a = ⟨List.replicate 32 3⟩ then
        some ⟨Faction.PROGRAM_ID,
          Faction.PlayerFactionData.discriminator ++ List.replicate 82 0⟩
      else if a = ⟨List.replicate 32 5⟩ then
        some ⟨Faction.PROGRAM_ID,
          Faction.PlayerFactionData.discriminator ++ List.replicate 82 1⟩
      else none)
    ⟨List.replicate 32 3⟩ ⟨List.replicate 32 4⟩ ⟨List.replicate 32 5⟩
    ⟨Faction.PROGRAM_ID, Faction.PlayerFactionData.discriminator ++ List.replicate 82 0⟩
    ⟨Faction.PROGRAM_ID, Faction.PlayerFactionData.discriminator ++ List.replicate 82 1⟩
    ⟨⟨List.replicate 32 0⟩, 0, 0, 0, [0, 0, 0, 0, 0]⟩
    ⟨⟨List.replicate 32 1⟩, decodeI64LE (List.replicate 8 1), 1, 1,
      [decodeULE (List.replicate 8 1), decodeULE (List.replicate 8 1),
       decodeULE (List.replicate 8 1), decodeULE (List.replicate 8 1),
       decodeULE (List.replicate 8 1)]⟩
    (by decide) (by decide) (by decide) (by decide) (by decide) (by decide) (by decide)

theorem fetchLoop_error_of_mismatch (infos : List (Option Faction.AccountInfo))
    (h : ∃ info ∈ infos, ∃ i, info = some i ∧ i.owner ≠ Faction.PROGRAM_ID) :
    ∃ e, Faction.fetchLoop infos = .error e := by
  induction infos with
  | nil =>
      rcases h with ⟨info, hmem, _⟩
      simp at hmem
  | cons info0 rest ih =>
      rcases h with ⟨info, hmem, i, hi, hne⟩
      rcases List.mem_cons.mp hmem with heq | hmem2
      · subst heq
        subst hi
        exact ⟨.ownershipMismatch, by simp only [Faction.fetchLoop]; rw [if_pos hne]⟩
      · have htail := ih ⟨info, hmem2, i, hi, hne⟩
        rcases htail with ⟨e, he⟩
        cases info0 with
        | none =>
            refine ⟨e, ?_⟩
            have hstep : Faction.fetchLoop (none :: rest) =
                (Faction.fetchLoop rest).map (fun tl => none :: tl) := rfl
            rw [hstep, he]
            rfl
        | some i0 =>
            by_cases ho : i0.owner ≠ Faction.PROGRAM_ID
            · exact ⟨.ownershipMismatch, by simp only [Faction.fetchLoop]; rw [if_pos ho]⟩
            · cases hd : Faction.PlayerFactionData.decode i0.data with
              | error e2 =>
                  exact ⟨e2, by simp only [Faction.fetchLoop]
                                rw [if_neg ho, hd, exbind_err]⟩
              | ok v =>
                  exact ⟨e, by simp only [Faction.fetchLoop]
                               rw [if_neg ho, hd, exbind_ok, he, exbind_err]⟩

/-- C9: in `fetch_multiple`, an ownership mismatch on any entry makes the
whole call fail: no list is returned at all, so values already decoded for
earlier addresses in the batch are discarded rather than delivered. -/
theorem claim_C9 (conn : PublicKey → Option Faction.AccountInfo)
    (addresses : List PublicKey)
    (h : ∃ a ∈ addresses, ∃ i, conn a = some i ∧ i.owner ≠ Faction.PROGRAM_ID) :
    ∃ e, Faction.PlayerFactionData.fetch_multiple conn addresses = .error e := by
  apply fetchLoop_error_of_mismatch
  rcases h with ⟨a, ha, i, hc, hne⟩
  exact ⟨conn a, List.mem_map_of_mem conn ha, i, hc, hne⟩

theorem claim_C9_witness :
    ∃ e, Faction.PlayerFactionData.fetch_multiple
        (fun a =>
          if a = ⟨List.replicate 32 3⟩ then
            some ⟨Faction.PROGRAM_ID,
              Faction.PlayerFactionData.discriminator ++ List.replicate 82 0⟩
          else some ⟨⟨List.replicate 32 0⟩, []⟩)
        [⟨List.replicate 32 3⟩, ⟨List.replicate 32 4⟩] = .error e :=
  claim_C9
    (fun a =>
      if a = ⟨List.replicate 32 3⟩ then
        some ⟨Faction.PROGRAM_ID,
          Faction.PlayerFactionData.discriminator ++ List.replicate 82 0⟩
      else some ⟨⟨List.replicate 32 0⟩, []⟩)
    [⟨List.replicate 32 3⟩, ⟨List.replicate 32 4⟩]
    ⟨⟨List.replicate 32 4⟩, by decide, ⟨⟨List.replicate 32 0⟩, []⟩, by decide, by decide⟩
